import Mathlib

/-!
# nightswatch: the watch loop, the tree registration and the entry point

A shallow embedding of `main.go`.  Stateful code is written in state-passing
style over a `World` that records the calls made to the collaborators
(`log`, `fmt`, `filepath.Walk`, the fsnotify watcher) and the watch list of
the notification facility.  The three signal sources merged by the `select`
of `Watch` (change events, errors, ticks) are given as the list of signals in
the order in which the `select` receives them.
-/

namespace Nightswatch

/-! ## Values -/

/-- A non-nil Go `error` value, identified by its message. -/
structure Err where
  msg : String
  deriving DecidableEq, Repr

/-- A Go `error` result; `none` is `nil`. -/
abbrev GoError := Option Err

/-- The `fsnotify.Event` record: the path and the operation bit mask. -/
structure Event where
  Name : String
  Op : Nat
  deriving DecidableEq, Repr

/-- The `Config` struct of `main.go`. -/
structure Config where
  Path : String
  Match : String
  Build : String
  Reload : String
  Interval : String
  deriving DecidableEq, Repr

/-- The part of `os.FileInfo` that `filepath.Walk` reads. -/
structure FileInfo where
  isDir : Bool
  deriving DecidableEq, Repr

/-- What the `select` of `Watch` can receive in one iteration. -/
inductive Signal where
  | event (e : Event)
  | error (err : GoError)
  | tick
  deriving DecidableEq, Repr

/-- Observable actions, in the order in which they happen. -/
inductive Effect where
  | log (line : String)
  | logEvent (e : Event)
  | println (text : String)
  | build
  | reload
  | walk (root : String)
  | add (path : String)
  | close
  deriving DecidableEq, Repr

/-- The mutable world of the program: the watch list held by the fsnotify
watcher (paths accepted by `Add`, oldest first) and the actions so far. -/
structure World where
  watched : List String
  trace : List Effect
  deriving DecidableEq, Repr

/-- The world at process start. -/
def World.init : World := { watched := [], trace := [] }

/-- Record one action. -/
def World.emit (w : World) (e : Effect) : World :=
  { w with trace := w.trace ++ [e] }

/-- Record several actions. -/
def World.emits (w : World) (es : List Effect) : World :=
  { w with trace := w.trace ++ es }

/-! ## The file system seen by `filepath.Walk` -/

mutual
/-- What is found at a path: `missing` when `Lstat` fails, a non-directory,
a directory with its entries in the order of `readDirNames`, or a directory
whose listing fails. -/
inductive Node where
  | missing (e : Err)
  | file
  | dir (entries : Entries)
  | unreadable (e : Err)
/-- The named entries of a directory. -/
inductive Entries where
  | nil
  | cons (name : String) (node : Node) (rest : Entries)
end

/-- The collaborators of the program that are not in `main.go`. -/
structure Env where
  /-- The tree found at a root path. -/
  fs : String → Node
  /-- The library function `filepath.Join` on a directory path and a name. -/
  join : String → String → String
  /-- The verdict of the notification facility on `Add`: given the current
  watch list and the path, `none` accepts and `some e` rejects. -/
  addErr : List String → String → GoError
  /-- The result of `fsnotify.NewWatcher`: `some e` when it fails. -/
  newWatcher : GoError
  /-- The library function `toml.LoadFile`: the key-value document of a file. -/
  loadFile : String → Except Err (List (String × String))
  /-- The library method `Unmarshal` of the loaded document. -/
  unmarshal : List (String × String) → Except Err Config

/-- The type `filepath.WalkFunc`, in state-passing style. -/
abbrev WalkFunc := String → Option FileInfo → GoError → World → GoError × World

mutual
/-- The library function `walk` of `path/filepath`, together with the
handling of a failed `Lstat` by its caller: the walk function is called on
the path, and for a readable directory the entries are walked in order.
Error values here are failures of the operating system or of the
notification facility, never the sentinel `SkipDir`. -/
def walkNode (join : String → String → String) (fn : WalkFunc) (path : String) :
    Node → World → GoError × World
  | .missing e, w => fn path none (some e) w
  | .file, w => fn path (some ⟨false⟩) none w
  | .unreadable e, w => fn path (some ⟨true⟩) (some e) w
  | .dir es, w =>
    match fn path (some ⟨true⟩) none w with
    | (some e, w1) => (some e, w1)
    | (none, w1) => walkEntries join fn path es w1
/-- The loop of `walk` over the names of a directory. -/
def walkEntries (join : String → String → String) (fn : WalkFunc) (path : String) :
    Entries → World → GoError × World
  | .nil, w => (none, w)
  | .cons name node rest, w =>
    match walkNode join fn (join path name) node w with
    | (some e, w1) => (some e, w1)
    | (none, w1) => walkEntries join fn path rest w1
end

/-- The library function `filepath.Walk`. -/
def Walk (env : Env) (root : String) (fn : WalkFunc) (w : World) : GoError × World :=
  walkNode env.join fn root (env.fs root) (w.emit (.walk root))

/-! ## The watcher -/

/-- The method `Add` of the embedded fsnotify watcher: the facility accepts
the path into its watch list or rejects it with an error. -/
def Add (env : Env) (path : String) (w : World) : GoError × World :=
  let w1 := w.emit (.add path)
  match env.addErr w1.watched path with
  | some e => (some e, w1)
  | none => (none, { w1 with watched := w1.watched ++ [path] })

/-- The method `Close` of the embedded fsnotify watcher. -/
def Close (w : World) : World := w.emit .close

/-- The function `errors.New`: it builds an error value and does nothing else. -/
def errorsNew (message : String) : GoError := some ⟨message⟩

/-- The method `Watcher.Visit` (lines 104-109). -/
def Visit (env : Env) : WalkFunc := fun path _ err w =>
  match err with
  | some e => (some e, w)
  | none => Add env path w

/-- The method `Watcher.Load` (lines 90-95).  The value built by `errors.New`
on line 92 is an expression statement: it is neither returned nor stored. -/
def Load (env : Env) (c : Config) (w : World) : GoError × World :=
  let _dropped : GoError := if c.Path = "" then errorsNew "Paths must not be empty." else none
  Walk env c.Path (Visit env) w

/-- The method `Watcher.Build` (lines 80-83): its result and the actions it
performs, the entry into the method first. -/
def Build : GoError × List Effect := (none, [.build, .log "Build"])

/-- The method `Watcher.Reload` (lines 85-88). -/
def Reload : GoError × List Effect := (none, [.reload, .log "Reload"])

/-- One execution of the loop body of `Watch`. -/
structure Pass where
  /-- The signal the `select` received. -/
  signal : Signal
  /-- The value of `changed` read by `if changed` on line 70, when that line ran. -/
  tested : Option Bool
  /-- The actions of the iteration. -/
  effects : List Effect
  /-- The value of `changed` when the iteration ends. -/
  changed : Bool
  /-- The value handed to `return`, when the iteration returns. -/
  ret : Option GoError
  deriving DecidableEq, Repr

/-- The `select` statement of `Watch` (lines 63-75), entered with the actions
`pre` already performed in this iteration and with `changed` holding the
given value.  The results of `Build` and `Reload` are not inspected. -/
def selectStmt (pre : List Effect) (changed : Bool) (sig : Signal) : Pass :=
  match sig with
  | .event e =>
    { signal := sig, tested := none, effects := pre ++ [.logEvent e], changed := true, ret := none }
  | .error err =>
    { signal := sig, tested := none, effects := pre, changed := changed, ret := some err }
  | .tick =>
    if changed then
      { signal := sig, tested := some changed, effects := pre ++ Build.2 ++ Reload.2,
        changed := false, ret := none }
    else
      { signal := sig, tested := some changed, effects := pre, changed := changed, ret := none }

/-- The body of the `for` loop of `Watch` (lines 61-75): the log line, the
declaration `changed := false`, then the `select`. -/
def loopBody (sig : Signal) : Pass :=
  let pre := [Effect.log "loop"]
  let changed := false
  selectStmt pre changed sig

/-- How far a call has got on the signals it was given. -/
inductive Outcome where
  /-- The call returned this value. -/
  | returned (e : GoError)
  /-- The call is blocked in the `select`, all signals consumed. -/
  | waiting
  deriving DecidableEq, Repr

/-- The iterations a call of `Watch` went through and how it ended. -/
structure WatchRun where
  passes : List Pass
  outcome : Outcome
  deriving DecidableEq, Repr

/-- The method `Watcher.Watch` (lines 58-78) on the signals its `select`
receives, in order.  No state is carried from one iteration to the next. -/
def Watch : List Signal → WatchRun
  | [] => { passes := [], outcome := .waiting }
  | sig :: rest =>
    let p := loopBody sig
    match p.ret with
    | some e => { passes := [p], outcome := .returned e }
    | none =>
      let r := Watch rest
      { passes := p :: r.passes, outcome := r.outcome }

/-- All actions of a run of `Watch`, in order. -/
def WatchRun.effects (r : WatchRun) : List Effect :=
  (r.passes.map Pass.effects).flatten

/-- What a call of `Run` or `run` did: how it ended, the world it left, and
the loop iterations it went through. -/
structure Result where
  outcome : Outcome
  world : World
  passes : List Pass
  deriving DecidableEq, Repr

/-- The method `Watcher.Run` (lines 97-102). -/
def Run (env : Env) (c : Config) (sigs : List Signal) (w : World) : Result :=
  match Load env c w with
  | (some e, w1) => { outcome := .returned (some e), world := w1, passes := [] }
  | (none, w1) =>
    let r := Watch sigs
    { outcome := r.outcome, world := w1.emits r.effects, passes := r.passes }

/-- The flags of the command line that `run` and `config` read. -/
structure Cli where
  help : Bool
  config : String
  deriving DecidableEq, Repr

/-- The variable `helpText`. -/
def helpText : String :=
  "\nnightswatch - A configurable file watcher with fsnotify API\n\nUsage:\n   nightswatch [options]\n\n   --config, -c   read a specific config file (default: ./nightswatch.toml)\n   --help, -h     show help (default: false)\n   --version, -v  print the version (default: false)\n"

/-- The function `config` (lines 119-133). -/
def config (env : Env) (c : Cli) : Except Err Config :=
  let path := if c.config ≠ "" then c.config else "./nightswatch.toml"
  match env.loadFile path with
  | .error e => .error e
  | .ok tree =>
    match env.unmarshal tree with
    | .error e => .error e
    | .ok conf => .ok conf

/-- The function `NewWatcher` (lines 50-56): `none` is the new watcher. -/
def NewWatcher (env : Env) : GoError := env.newWatcher

/-- The function `run` (lines 26-43).  The deferred `Close` runs when `Run`
has returned; while `Run` is blocked in the loop it has not run. -/
def run (env : Env) (c : Cli) (sigs : List Signal) (w : World) : Result :=
  if c.help then
    { outcome := .returned none, world := w.emit (.println helpText), passes := [] }
  else
    match config env c with
    | .error e => { outcome := .returned (some e), world := w, passes := [] }
    | .ok conf =>
      match NewWatcher env with
      | some e => { outcome := .returned (some e), world := w, passes := [] }
      | none =>
        let r := Run env conf sigs w
        match r.outcome with
        | .returned e => { outcome := .returned e, world := Close r.world, passes := r.passes }
        | .waiting => r

/-! ## Vocabulary of the properties -/

/-- Whether a signal is an error signal. -/
def Signal.isError : Signal → Bool
  | .error _ => true
  | _ => false

/-- Whether a signal is a change event. -/
def Signal.isEvent : Signal → Bool
  | .event _ => true
  | _ => false

/-- Number of entries into `Build` among some actions. -/
def builds (es : List Effect) : Nat := es.count .build

/-- Number of entries into `Reload` among some actions. -/
def reloads (es : List Effect) : Nat := es.count .reload

/-- Number of calls of `Close` among some actions. -/
def closes (es : List Effect) : Nat := es.count .close

/-- The paths handed to `Add`, in call order. -/
def adds : List Effect → List String
  | [] => []
  | .add p :: rest => p :: adds rest
  | _ :: rest => adds rest

/-- The roots handed to `filepath.Walk`, in call order. -/
def walks : List Effect → List String
  | [] => []
  | .walk p :: rest => p :: walks rest
  | _ :: rest => walks rest

mutual
/-- Whether `Lstat` and the directory listing succeed everywhere in a tree. -/
def Node.clean : Node → Bool
  | .missing _ => false
  | .file => true
  | .unreadable _ => false
  | .dir es => es.clean
/-- Whether every entry is a clean tree. -/
def Entries.clean : Entries → Bool
  | .nil => true
  | .cons _ n rest => n.clean && rest.clean
end

mutual
/-- Number of non-directories in a tree. -/
def Node.files : Node → Nat
  | .file => 1
  | .dir es => es.files
  | _ => 0
/-- Number of non-directories below some entries. -/
def Entries.files : Entries → Nat
  | .nil => 0
  | .cons _ n rest => n.files + rest.files
end

mutual
/-- Number of directories in a tree, its root included. -/
def Node.dirs : Node → Nat
  | .dir es => 1 + es.dirs
  | .unreadable _ => 1
  | _ => 0
/-- Number of directories below some entries. -/
def Entries.dirs : Entries → Nat
  | .nil => 0
  | .cons _ n rest => n.dirs + rest.dirs
end

/-- One call of the walk function: the path and the error reported for it. -/
structure VisitCall where
  path : String
  err : GoError
  deriving DecidableEq, Repr

mutual
/-- The calls `filepath.Walk` makes on a tree when no call returns an error:
every path of the tree, a directory before its entries. -/
def Node.visits (join : String → String → String) (path : String) : Node → List VisitCall
  | .missing e => [⟨path, some e⟩]
  | .file => [⟨path, none⟩]
  | .unreadable e => [⟨path, some e⟩]
  | .dir es => ⟨path, none⟩ :: es.visits join path
/-- The calls made for the entries of the directory at `path`. -/
def Entries.visits (join : String → String → String) (path : String) : Entries → List VisitCall
  | .nil => []
  | .cons name n rest => n.visits join (join path name) ++ rest.visits join path
end

/-- The paths of a tree rooted at `path`, a directory before its entries. -/
def Node.paths (join : String → String → String) (path : String) (n : Node) : List String :=
  (n.visits join path).map VisitCall.path

/-- The error with which the visit of `v` ends when the watch list is `ws`:
the error reported by the traversal, else the verdict of `Add`. -/
def visitError (env : Env) (ws : List String) (v : VisitCall) : GoError :=
  match v.err with
  | some e => some e
  | none => env.addErr ws v.path

/-- The visits of a list of calls by `Visit`, stopping at the first error. -/
def runVisits (env : Env) : List VisitCall → World → GoError × World
  | [], w => (none, w)
  | v :: rest, w =>
    match Visit env v.path none v.err w with
    | (some e, w1) => (some e, w1)
    | (none, w1) => runVisits env rest w1

/-- Whether `Add` accepts each of the paths in turn, starting from the watch list `ws`. -/
def addsAccepted (env : Env) : List String → List String → Bool
  | _, [] => true
  | ws, p :: rest => (env.addErr ws p).isNone && addsAccepted env (ws ++ [p]) rest

/-! ## Concrete environments -/

/-- A configuration that names the root `p` and leaves the other fields empty. -/
def configAt (p : String) : Config := ⟨p, "", "", "", ""⟩

/-- A project directory with two files and a subdirectory holding one file. -/
def projTree : Entries :=
  .cons "a.txt" .file (.cons "b.txt" .file (.cons "sub" (.dir (.cons "c.txt" .file .nil)) .nil))

/-- A project directory in which the listing of the subdirectory `locked` fails. -/
def lockedTree : Entries :=
  .cons "a.txt" .file (.cons "locked" (.unreadable ⟨"open /tmp/locked/locked: permission denied"⟩)
    (.cons "b.txt" .file .nil))

/-- An environment with a readable project at `/tmp/proj`, a project with an
unreadable subdirectory at `/tmp/locked`, nothing elsewhere, a notification
facility that accepts every path, and a configuration file that names
`/tmp/proj`. -/
def demoEnv : Env where
  fs := fun p =>
    if p = "/tmp/proj" then .dir projTree
    else if p = "/tmp/locked" then .dir lockedTree
    else .missing ⟨"lstat " ++ p ++ ": no such file or directory"⟩
  join := fun d n => d ++ "/" ++ n
  addErr := fun _ _ => none
  newWatcher := none
  loadFile := fun f =>
    if f = "./nightswatch.toml" then .ok [("path", "/tmp/proj")]
    else .error ⟨"open " ++ f ++ ": no such file or directory"⟩
  unmarshal := fun _ => .ok (configAt "/tmp/proj")

/-- The environment `demoEnv` with a notification facility that holds at most two watches. -/
def limitedEnv : Env :=
  { demoEnv with
    addErr := fun ws _ => if ws.length < 2 then none else some ⟨"no space left on device"⟩ }

/-- The environment `demoEnv` in which no notification facility can be created. -/
def noWatcherEnv : Env :=
  { demoEnv with newWatcher := some ⟨"too many open files"⟩ }

/-- The environment `demoEnv` with a configuration file that names a root that does not exist. -/
def lostRootEnv : Env :=
  { demoEnv with unmarshal := fun _ => .ok (configAt "/nowhere") }

/-! ## The watch loop -/

theorem loopBody_event (e : Event) :
    loopBody (.event e) =
      { signal := .event e, tested := none, effects := [.log "loop", .logEvent e],
        changed := true, ret := none } := rfl

theorem loopBody_error (err : GoError) :
    loopBody (.error err) =
      { signal := .error err, tested := none, effects := [.log "loop"],
        changed := false, ret := some err } := rfl

theorem loopBody_tick :
    loopBody .tick =
      { signal := .tick, tested := some false, effects := [.log "loop"],
        changed := false, ret := none } := rfl

theorem loopBody_signal (sig : Signal) : (loopBody sig).signal = sig := by
  cases sig <;> rfl

theorem loopBody_ret (sig : Signal) :
    (loopBody sig).ret = match sig with | .error err => some err | _ => none := by
  cases sig <;> rfl

theorem loopBody_ret_none {sig : Signal} (h : sig.isError = false) : (loopBody sig).ret = none := by
  cases sig <;> simp_all [Signal.isError, loopBody_event, loopBody_tick]

theorem loopBody_builds (sig : Signal) : builds (loopBody sig).effects = 0 := by
  cases sig <;> simp [loopBody_event, loopBody_error, loopBody_tick, builds]

theorem loopBody_reloads (sig : Signal) : reloads (loopBody sig).effects = 0 := by
  cases sig <;> simp [loopBody_event, loopBody_error, loopBody_tick, reloads]

theorem loopBody_closes (sig : Signal) : closes (loopBody sig).effects = 0 := by
  cases sig <;> simp [loopBody_event, loopBody_error, loopBody_tick, closes]

theorem loopBody_tested (sig : Signal) : (loopBody sig).tested ≠ some true := by
  cases sig <;> simp [loopBody_event, loopBody_error, loopBody_tick]

theorem Watch_nil : Watch [] = { passes := [], outcome := .waiting } := rfl

theorem Watch_cons_error (err : GoError) (rest : List Signal) :
    Watch (.error err :: rest) = { passes := [loopBody (.error err)], outcome := .returned err } := rfl

theorem Watch_cons_of_not_error {sig : Signal} (h : sig.isError = false) (rest : List Signal) :
    Watch (sig :: rest) =
      { passes := loopBody sig :: (Watch rest).passes, outcome := (Watch rest).outcome } := by
  cases sig with
  | error err => simp [Signal.isError] at h
  | event e => rfl
  | tick => rfl

theorem Watch_passes_mem {sigs : List Signal} {p : Pass} (h : p ∈ (Watch sigs).passes) :
    p = loopBody p.signal := by
  induction sigs with
  | nil => simp [Watch_nil] at h
  | cons sig rest ih =>
    cases hs : sig.isError with
    | true =>
      cases sig with
      | error err =>
        simp [Watch_cons_error] at h
        subst h
        rw [loopBody_signal]
      | event e => simp [Signal.isError] at hs
      | tick => simp [Signal.isError] at hs
    | false =>
      rw [Watch_cons_of_not_error hs] at h
      simp at h
      rcases h with h | h
      · subst h
        rw [loopBody_signal]
      · exact ih h

theorem Watch_append_of_no_error (pre rest : List Signal)
    (h : ∀ s ∈ pre, s.isError = false) :
    Watch (pre ++ rest) =
      { passes := pre.map loopBody ++ (Watch rest).passes, outcome := (Watch rest).outcome } := by
  induction pre with
  | nil => simp
  | cons s pre ih =>
    have hs : s.isError = false := h s (by simp)
    have ht : ∀ t ∈ pre, t.isError = false := fun t ht => h t (by simp [ht])
    rw [List.cons_append, Watch_cons_of_not_error hs, ih ht]
    simp

theorem get?_length_append {α : Type} (l r : List α) (x : α) :
    (l ++ x :: r).get? l.length = some x := by
  induction l with
  | nil => rfl
  | cons a l ih => simpa using ih

theorem count_flatten_zero (x : Effect) (ls : List (List Effect))
    (h : ∀ l ∈ ls, l.count x = 0) : ls.flatten.count x = 0 := by
  induction ls with
  | nil => simp
  | cons l ls ih =>
    rw [List.flatten_cons, List.count_append, h l (by simp), ih (fun m hm => h m (by simp [hm]))]

theorem Watch_effects_count_zero (x : Effect) (sigs : List Signal)
    (h : ∀ sig, (loopBody sig).effects.count x = 0) : (Watch sigs).effects.count x = 0 := by
  unfold WatchRun.effects
  apply count_flatten_zero
  intro l hl
  rw [List.mem_map] at hl
  obtain ⟨p, hp, rfl⟩ := hl
  rw [Watch_passes_mem hp]
  exact h _

theorem Watch_returns_of_mem_error {sigs : List Signal} {e : GoError}
    (h : Signal.error e ∈ sigs) : ∃ r, (Watch sigs).outcome = .returned r := by
  induction sigs with
  | nil => simp at h
  | cons s rest ih =>
    cases s with
    | error err => exact ⟨err, by rw [Watch_cons_error]⟩
    | event ev =>
      have hr : Signal.error e ∈ rest := by simpa using h
      have hs : (Signal.event ev).isError = false := rfl
      rw [Watch_cons_of_not_error hs]
      exact ih hr
    | tick =>
      have hr : Signal.error e ∈ rest := by simpa using h
      have hs : Signal.tick.isError = false := rfl
      rw [Watch_cons_of_not_error hs]
      exact ih hr

/-- C10: whatever signals the loop receives, `Build` and `Reload` are never
entered; every iteration is the `select` entered with `changed = false`, so
every test of the flag on a tick reads `false`. -/
theorem Watch_never_dispatches (sigs : List Signal) :
    builds (Watch sigs).effects = 0 ∧ reloads (Watch sigs).effects = 0 ∧
    (∀ p ∈ (Watch sigs).passes, p = selectStmt [.log "loop"] false p.signal) ∧
    (∀ p ∈ (Watch sigs).passes, p.signal = .tick → p.tested = some false) ∧
    (∀ p ∈ (Watch sigs).passes, p.tested ≠ some true) := by
  refine ⟨Watch_effects_count_zero _ sigs loopBody_builds,
    Watch_effects_count_zero _ sigs loopBody_reloads, ?_, ?_, ?_⟩
  · intro p hp
    exact Watch_passes_mem hp
  · intro p hp ht
    rw [Watch_passes_mem hp, ht, loopBody_tick]
  · intro p hp
    rw [Watch_passes_mem hp]
    exact loopBody_tested _

/-- C3: `Watch` returns exactly when an error signal is among its signals; it
returns at the first one, with that error value unchanged, after consuming the
signals up to it; without an error signal it consumes every signal and is
still waiting. -/
theorem Watch_returns_iff_error (sigs : List Signal) :
    ((∃ e, (Watch sigs).outcome = .returned e) ↔ ∃ e, Signal.error e ∈ sigs) ∧
    (∀ pre e post, (∀ s ∈ pre, s.isError = false) → sigs = pre ++ .error e :: post →
      (Watch sigs).outcome = .returned e ∧
      (Watch sigs).passes.map Pass.signal = pre ++ [.error e] ∧
      ((Watch sigs).passes.map Pass.ret).getLast? = some (some e)) ∧
    ((∀ s ∈ sigs, s.isError = false) →
      (Watch sigs).outcome = .waiting ∧ (Watch sigs).passes.map Pass.signal = sigs) := by
  have key : ∀ pre e post, (∀ s ∈ pre, s.isError = false) →
      (Watch (pre ++ Signal.error e :: post)).outcome = .returned e ∧
      (Watch (pre ++ Signal.error e :: post)).passes.map Pass.signal = pre ++ [.error e] ∧
      ((Watch (pre ++ Signal.error e :: post)).passes.map Pass.ret).getLast? = some (some e) := by
    intro pre e post hpre
    rw [Watch_append_of_no_error pre _ hpre, Watch_cons_error]
    refine ⟨rfl, ?_, ?_⟩
    · simp [Function.comp_def, loopBody_signal]
    · simp [loopBody_error]
  have quiet : ∀ l : List Signal, (∀ s ∈ l, s.isError = false) →
      (Watch l).outcome = .waiting ∧ (Watch l).passes.map Pass.signal = l := by
    intro l hl
    have h := Watch_append_of_no_error l [] hl
    rw [List.append_nil] at h
    rw [h]
    simp [Watch_nil, Function.comp_def, loopBody_signal]
  refine ⟨⟨?_, ?_⟩, ?_, quiet sigs⟩
  · rintro ⟨e, he⟩
    by_contra hno
    have hq : ∀ s ∈ sigs, s.isError = false := by
      intro s hs
      cases s with
      | error err => exact absurd ⟨err, hs⟩ hno
      | event ev => rfl
      | tick => rfl
    rw [(quiet sigs hq).1] at he
    cases he
  · rintro ⟨e, he⟩
    exact Watch_returns_of_mem_error he
  · intro pre e post hpre hs
    subst hs
    exact key pre e post hpre

/-- C3, on a run with two error signals: the first one ends the loop, and
the change event and the tick before it do not. -/
theorem Watch_returns_iff_error_witness :
    (Watch [.event ⟨"a.txt", 2⟩, .tick, .error (some ⟨"overflow"⟩), .error (some ⟨"late"⟩),
        .tick]).outcome = .returned (some ⟨"overflow"⟩) ∧
    (Watch [.event ⟨"a.txt", 2⟩, .tick, .error (some ⟨"overflow"⟩), .error (some ⟨"late"⟩),
        .tick]).passes.map Pass.signal =
      [.event ⟨"a.txt", 2⟩, .tick] ++ [.error (some ⟨"overflow"⟩)] ∧
    (Watch [.event ⟨"a.txt", 2⟩, .tick, .tick]).outcome = .waiting :=
  have h := (Watch_returns_iff_error
    [.event ⟨"a.txt", 2⟩, .tick, .error (some ⟨"overflow"⟩), .error (some ⟨"late"⟩), .tick]).2.1
    [.event ⟨"a.txt", 2⟩, .tick] (some ⟨"overflow"⟩) [.error (some ⟨"late"⟩), .tick]
    (by decide) rfl
  ⟨h.1, h.2.1,
   ((Watch_returns_iff_error [.event ⟨"a.txt", 2⟩, .tick, .tick]).2.2 (by decide)).1⟩

/-- C2: a tick that is handled with no change event since the previous tick
(or since the loop started) enters neither `Build` nor `Reload`. -/
theorem Watch_quiet_tick_no_dispatch (before quiet post : List Signal)
    (hstart : before = [] ∨ before.getLast? = some .tick)
    (hquiet : ∀ s ∈ quiet, s.isEvent = false)
    (hrun : ∀ s ∈ before ++ quiet, s.isError = false) :
    ∃ p, (Watch (before ++ quiet ++ .tick :: post)).passes.get? (before ++ quiet).length = some p ∧
      p.signal = .tick ∧ builds p.effects = 0 ∧ reloads p.effects = 0 := by
  refine ⟨loopBody .tick, ?_, rfl, loopBody_builds _, loopBody_reloads _⟩
  have ht : Signal.tick.isError = false := rfl
  rw [Watch_append_of_no_error (before ++ quiet) _ hrun, Watch_cons_of_not_error ht]
  have h := get?_length_append (List.map loopBody (before ++ quiet)) (Watch post).passes
    (loopBody .tick)
  rw [List.length_map] at h
  exact h

/-- C2, at a concrete run: two ticks in a row after a burst, and a first tick. -/
theorem Watch_quiet_tick_no_dispatch_witness :
    (∃ p, (Watch ([.event ⟨"a.txt", 2⟩, .tick] ++ [] ++ .tick :: [.event ⟨"b.txt", 2⟩])).passes.get?
        ([Signal.event ⟨"a.txt", 2⟩, .tick] ++ ([] : List Signal)).length = some p ∧
      p.signal = .tick ∧ builds p.effects = 0 ∧ reloads p.effects = 0) ∧
    (Watch [.event ⟨"a.txt", 2⟩, .tick, .tick, .event ⟨"b.txt", 2⟩]).passes.map Pass.effects =
      [[.log "loop", .logEvent ⟨"a.txt", 2⟩], [.log "loop"], [.log "loop"],
       [.log "loop", .logEvent ⟨"b.txt", 2⟩]] :=
  ⟨Watch_quiet_tick_no_dispatch [.event ⟨"a.txt", 2⟩, .tick] [] [.event ⟨"b.txt", 2⟩]
    (Or.inr rfl) (by simp) (by simp [Signal.isError]), by decide⟩

/-- C1 fails on the code: however many change events (at least one) arrive
between two ticks that the loop handles, the second tick enters `Build` and
`Reload` zero times, not once. -/
theorem Watch_burst_between_ticks_no_dispatch (before evs post : List Signal)
    (hrun : ∀ s ∈ before, s.isError = false)
    (hk : 1 ≤ evs.length)
    (hev : ∀ s ∈ evs, s.isEvent = true) :
    ∃ p, (Watch (before ++ .tick :: evs ++ .tick :: post)).passes.get?
        (before.length + 1 + evs.length) = some p ∧
      p.signal = .tick ∧ p.tested = some false ∧ builds p.effects = 0 ∧ reloads p.effects = 0 := by
  refine ⟨loopBody .tick, ?_, rfl, rfl, loopBody_builds _, loopBody_reloads _⟩
  have ht : Signal.tick.isError = false := rfl
  have hall : ∀ s ∈ before ++ .tick :: evs, s.isError = false := by
    intro s hs
    rw [List.mem_append, List.mem_cons] at hs
    rcases hs with hs | hs | hs
    · exact hrun s hs
    · rw [hs]; rfl
    · have := hev s hs
      cases s <;> simp_all [Signal.isEvent, Signal.isError]
  rw [Watch_append_of_no_error _ _ hall, Watch_cons_of_not_error ht]
  have h := get?_length_append (List.map loopBody (before ++ .tick :: evs)) (Watch post).passes
    (loopBody .tick)
  have hlen : (List.map loopBody (before ++ Signal.tick :: evs)).length =
      before.length + 1 + evs.length := by
    simp
    omega
  rw [hlen] at h
  exact h

/-- C1, the failing run: a tick, changes to two files, a tick. -/
theorem Watch_burst_between_ticks_no_dispatch_witness :
    (∃ p, (Watch ([] ++ .tick :: [.event ⟨"a.txt", 2⟩, .event ⟨"b.txt", 2⟩] ++ .tick :: [])).passes.get?
        (([] : List Signal).length + 1 + [Signal.event ⟨"a.txt", 2⟩, .event ⟨"b.txt", 2⟩].length) = some p ∧
      p.signal = .tick ∧ p.tested = some false ∧ builds p.effects = 0 ∧ reloads p.effects = 0) ∧
    (Watch [.tick, .event ⟨"a.txt", 2⟩, .event ⟨"b.txt", 2⟩, .tick]).effects =
      [.log "loop", .log "loop", .logEvent ⟨"a.txt", 2⟩, .log "loop", .logEvent ⟨"b.txt", 2⟩,
       .log "loop"] :=
  ⟨Watch_burst_between_ticks_no_dispatch [] [.event ⟨"a.txt", 2⟩, .event ⟨"b.txt", 2⟩] []
    (by simp) (by simp) (by simp [Signal.isEvent]), by decide⟩

/-- C7 fails on the code: after a change event the next tick reads
`changed = false`, although the event iteration ended with `changed = true`,
and enters neither `Build` nor `Reload`; the tick branch entered with
`changed = true` would call `Build`, then `Reload`, and clear the flag. -/
theorem Watch_pending_change_lost :
    (Watch [.event ⟨"a.txt", 2⟩, .tick]).passes =
      [{ signal := .event ⟨"a.txt", 2⟩, tested := none,
         effects := [.log "loop", .logEvent ⟨"a.txt", 2⟩], changed := true, ret := none },
       { signal := .tick, tested := some false, effects := [.log "loop"], changed := false,
         ret := none }] ∧
    builds (Watch [.event ⟨"a.txt", 2⟩, .tick]).effects = 0 ∧
    reloads (Watch [.event ⟨"a.txt", 2⟩, .tick]).effects = 0 ∧
    selectStmt [.log "loop"] true .tick =
      { signal := .tick, tested := some true,
        effects := [.log "loop", .build, .log "Build", .reload, .log "Reload"],
        changed := false, ret := none } := by
  decide

/-! ## Registration of the tree -/

theorem Visit_info (env : Env) (path : String) (info : Option FileInfo) (err : GoError) (w : World) :
    Visit env path info err w = Visit env path none err w := rfl

theorem Visit_error (env : Env) (path : String) (info : Option FileInfo) (e : Err) (w : World) :
    Visit env path info (some e) w = (some e, w) := rfl

theorem Visit_rejected (env : Env) (path : String) (info : Option FileInfo) (e : Err) (w : World)
    (h : env.addErr w.watched path = some e) :
    Visit env path info none w = (some e, w.emit (.add path)) := by
  simp [Visit, Add, World.emit, h]

theorem Visit_accepted (env : Env) (path : String) (info : Option FileInfo) (w : World)
    (h : env.addErr w.watched path = none) :
    Visit env path info none w =
      (none, { watched := w.watched ++ [path], trace := w.trace ++ [.add path] }) := by
  simp [Visit, Add, World.emit, h]

theorem runVisits_append (env : Env) (a b : List VisitCall) (w : World) :
    runVisits env (a ++ b) w =
      match runVisits env a w with
      | (some e, w1) => (some e, w1)
      | (none, w1) => runVisits env b w1 := by
  induction a generalizing w with
  | nil => simp [runVisits]
  | cons v a ih =>
    simp only [List.cons_append, runVisits]
    rcases h : Visit env v.path none v.err w with ⟨r, w1⟩
    cases r with
    | some e => simp
    | none => simp [ih]

mutual
theorem walkNode_eq_runVisits (env : Env) (path : String) :
    ∀ (n : Node) (w : World),
      walkNode env.join (Visit env) path n w = runVisits env (n.visits env.join path) w
  | .missing e, w => by simp [walkNode, Node.visits, runVisits, Visit]
  | .file, w => by
    simp only [walkNode, Node.visits, runVisits, Visit_info env path (some ⟨false⟩)]
    rcases Visit env path none none w with ⟨r, w1⟩
    cases r <;> rfl
  | .unreadable e, w => by simp [walkNode, Node.visits, runVisits, Visit]
  | .dir es, w => by
    simp only [walkNode, Node.visits, runVisits, Visit_info env path (some ⟨true⟩)]
    rcases Visit env path none none w with ⟨r, w1⟩
    cases r with
    | some e => rfl
    | none => exact walkEntries_eq_runVisits env path es w1
theorem walkEntries_eq_runVisits (env : Env) (path : String) :
    ∀ (es : Entries) (w : World),
      walkEntries env.join (Visit env) path es w = runVisits env (es.visits env.join path) w
  | .nil, w => by simp [walkEntries, Entries.visits, runVisits]
  | .cons name n rest, w => by
    simp only [walkEntries, Entries.visits, runVisits_append]
    rw [walkNode_eq_runVisits env (env.join path name) n w]
    rcases runVisits env (n.visits env.join (env.join path name)) w with ⟨r, w1⟩
    cases r with
    | some e => rfl
    | none => exact walkEntries_eq_runVisits env path rest w1
end

theorem Load_eq_runVisits (env : Env) (c : Config) (w : World) :
    Load env c w =
      runVisits env ((env.fs c.Path).visits env.join c.Path) (w.emit (.walk c.Path)) := by
  simp only [Load, Walk]
  exact walkNode_eq_runVisits env c.Path _ _

theorem runVisits_accepted (env : Env) (vs : List VisitCall) (w : World)
    (herr : ∀ v ∈ vs, v.err = none)
    (hadd : addsAccepted env w.watched (vs.map VisitCall.path) = true) :
    runVisits env vs w =
      (none, { watched := w.watched ++ vs.map VisitCall.path,
               trace := w.trace ++ (vs.map VisitCall.path).map Effect.add }) := by
  induction vs generalizing w with
  | nil => simp [runVisits]
  | cons v vs ih =>
    have hv : v.err = none := herr v (by simp)
    simp only [List.map_cons, addsAccepted, Bool.and_eq_true, Option.isNone_iff_eq_none] at hadd
    simp only [runVisits, hv, Visit_accepted env v.path none w hadd.1]
    rw [ih _ (fun u hu => herr u (by simp [hu])) hadd.2]
    simp

theorem runVisits_failed (env : Env) (pre post : List VisitCall) (v : VisitCall) (e : Err)
    (w : World)
    (herr : ∀ u ∈ pre, u.err = none)
    (hadd : addsAccepted env w.watched (pre.map VisitCall.path) = true)
    (hfail : visitError env (w.watched ++ pre.map VisitCall.path) v = some e) :
    runVisits env (pre ++ v :: post) w =
      (some e, { watched := w.watched ++ pre.map VisitCall.path,
                 trace := w.trace ++ (pre.map VisitCall.path).map Effect.add ++
                   (if v.err = none then [.add v.path] else []) }) := by
  rw [runVisits_append, runVisits_accepted env pre w herr hadd]
  simp only [runVisits]
  cases hv : v.err with
  | some e0 =>
    simp only [visitError, hv] at hfail
    simp [Visit_error, hfail]
  | none =>
    simp only [visitError, hv] at hfail
    rw [Visit_rejected env v.path none e _ hfail]
    simp [World.emit]

theorem adds_append (t u : List Effect) : adds (t ++ u) = adds t ++ adds u := by
  induction t with
  | nil => rfl
  | cons x t ih => cases x <;> simp [adds, ih]

theorem adds_map_add (ps : List String) : adds (ps.map Effect.add) = ps := by
  induction ps with
  | nil => rfl
  | cons p ps ih => simp [adds, ih]

theorem walks_append (t u : List Effect) : walks (t ++ u) = walks t ++ walks u := by
  induction t with
  | nil => rfl
  | cons x t ih => cases x <;> simp [walks, ih]

theorem walks_map_add (ps : List String) : walks (ps.map Effect.add) = [] := by
  induction ps with
  | nil => rfl
  | cons p ps ih => simp [walks, ih]

mutual
theorem node_visits_err_of_clean (join : String → String → String) :
    ∀ (n : Node) (path : String), n.clean = true → ∀ v ∈ n.visits join path, v.err = none
  | .missing e, _, h => by simp [Node.clean] at h
  | .unreadable e, _, h => by simp [Node.clean] at h
  | .file, path, _ => by simp [Node.visits]
  | .dir es, path, h => by
    intro v hv
    simp only [Node.visits, List.mem_cons] at hv
    rcases hv with hv | hv
    · rw [hv]
    · exact entries_visits_err_of_clean join es path (by simpa [Node.clean] using h) v hv
theorem entries_visits_err_of_clean (join : String → String → String) :
    ∀ (es : Entries) (path : String), es.clean = true → ∀ v ∈ es.visits join path, v.err = none
  | .nil, _, _ => by simp [Entries.visits]
  | .cons name n rest, path, h => by
    intro v hv
    simp only [Entries.clean, Bool.and_eq_true] at h
    simp only [Entries.visits, List.mem_append] at hv
    rcases hv with hv | hv
    · exact node_visits_err_of_clean join n _ h.1 v hv
    · exact entries_visits_err_of_clean join rest path h.2 v hv
end

mutual
theorem node_visits_length_of_clean (join : String → String → String) :
    ∀ (n : Node) (path : String), n.clean = true → (n.visits join path).length = n.files + n.dirs
  | .missing e, _, h => by simp [Node.clean] at h
  | .unreadable e, _, h => by simp [Node.clean] at h
  | .file, path, _ => by simp [Node.visits, Node.files, Node.dirs]
  | .dir es, path, h => by
    have ih := entries_visits_length_of_clean join es path (by simpa [Node.clean] using h)
    simp only [Node.visits, List.length_cons, Node.files, Node.dirs, ih]
    omega
theorem entries_visits_length_of_clean (join : String → String → String) :
    ∀ (es : Entries) (path : String), es.clean = true →
      (es.visits join path).length = es.files + es.dirs
  | .nil, _, _ => by simp [Entries.visits, Entries.files, Entries.dirs]
  | .cons name n rest, path, h => by
    simp only [Entries.clean, Bool.and_eq_true] at h
    have ih1 := node_visits_length_of_clean join n (join path name) h.1
    have ih2 := entries_visits_length_of_clean join rest path h.2
    simp only [Entries.visits, List.length_append, Entries.files, Entries.dirs, ih1, ih2]
    omega
end

/-- C5: on a tree whose root is a directory with `N` files and `M`
subdirectories below it, where no path reports an error and no registration
fails, `Load` returns nil and has called `Add` on the paths of the tree, one
call for each of the `N + M + 1` nodes, the root first, and on nothing else. -/
theorem Load_registers_whole_tree (env : Env) (c : Config) (es : Entries) (w : World)
    (hroot : env.fs c.Path = .dir es)
    (hclean : es.clean = true)
    (hadd : addsAccepted env w.watched ((Node.dir es).paths env.join c.Path) = true) :
    (Load env c w).1 = none ∧
    adds (Load env c w).2.trace = adds w.trace ++ (Node.dir es).paths env.join c.Path ∧
    (Load env c w).2.watched = w.watched ++ (Node.dir es).paths env.join c.Path ∧
    ((Node.dir es).paths env.join c.Path).length = es.files + es.dirs + 1 ∧
    ((Node.dir es).paths env.join c.Path).head? = some c.Path ∧
    (((Node.dir es).paths env.join c.Path).Nodup →
      ∀ p ∈ (Node.dir es).paths env.join c.Path,
        (adds (Load env c w).2.trace).count p = (adds w.trace).count p + 1) ∧
    (∀ p ∉ (Node.dir es).paths env.join c.Path,
        (adds (Load env c w).2.trace).count p = (adds w.trace).count p) := by
  have hc : (Node.dir es).clean = true := by simpa [Node.clean] using hclean
  have herr := node_visits_err_of_clean env.join (.dir es) c.Path hc
  have hlen := node_visits_length_of_clean env.join (.dir es) c.Path hc
  have hrun := runVisits_accepted env ((Node.dir es).visits env.join c.Path)
    (w.emit (.walk c.Path)) herr hadd
  have hload : Load env c w =
      (none, { watched := w.watched ++ (Node.dir es).paths env.join c.Path,
               trace := w.trace ++ [.walk c.Path] ++
                 ((Node.dir es).paths env.join c.Path).map Effect.add }) := by
    rw [Load_eq_runVisits, hroot, hrun]
    rfl
  have hadds : adds (Load env c w).2.trace = adds w.trace ++ (Node.dir es).paths env.join c.Path := by
    rw [hload]
    show adds (w.trace ++ [.walk c.Path] ++ ((Node.dir es).paths env.join c.Path).map Effect.add) = _
    rw [adds_append, adds_append, adds_map_add]
    simp [adds]
  refine ⟨by rw [hload], hadds, by rw [hload], ?_, ?_, ?_, ?_⟩
  · simp only [Node.paths, List.length_map, hlen, Node.files, Node.dirs]
    omega
  · simp [Node.paths, Node.visits]
  · intro hnd p hp
    rw [hadds, List.count_append, List.count_eq_one_of_mem hnd hp]
  · intro p hp
    rw [hadds, List.count_append, List.count_eq_zero_of_not_mem hp, Nat.add_zero]

/-- C5, on the project `/tmp/proj` with three files and one subdirectory. -/
theorem Load_registers_whole_tree_witness :
    demoEnv.fs (configAt "/tmp/proj").Path = .dir projTree ∧ projTree.clean = true ∧
    projTree.files = 3 ∧ projTree.dirs = 1 ∧
    (Load demoEnv (configAt "/tmp/proj") World.init).1 = none ∧
    adds (Load demoEnv (configAt "/tmp/proj") World.init).2.trace =
      ["/tmp/proj", "/tmp/proj/a.txt", "/tmp/proj/b.txt", "/tmp/proj/sub", "/tmp/proj/sub/c.txt"] ∧
    (adds (Load demoEnv (configAt "/tmp/proj") World.init).2.trace).count "/tmp/proj/sub" =
      (adds World.init.trace).count "/tmp/proj/sub" + 1 :=
  have h := Load_registers_whole_tree demoEnv (configAt "/tmp/proj") projTree World.init
    rfl (by decide) (by decide)
  ⟨rfl, by decide, by decide, by decide, h.1, h.2.1.trans (by decide),
   h.2.2.2.2.2.1 (by decide) "/tmp/proj/sub" (by decide)⟩

theorem Load_trace (env : Env) (c : Config) (w : World) :
    ∃ ps : List String, (Load env c w).2.trace = w.trace ++ .walk c.Path :: ps.map Effect.add := by
  rw [Load_eq_runVisits]
  have key : ∀ (vs : List VisitCall) (w0 : World),
      ∃ ps : List String, (runVisits env vs w0).2.trace = w0.trace ++ ps.map Effect.add := by
    intro vs
    induction vs with
    | nil => exact fun w0 => ⟨[], by simp [runVisits]⟩
    | cons v vs ih =>
      intro w0
      simp only [runVisits]
      cases hv : v.err with
      | some e => exact ⟨[], by simp [Visit_error]⟩
      | none =>
        cases ha : env.addErr w0.watched v.path with
        | some e => exact ⟨[v.path], by simp [Visit_rejected env v.path none e w0 ha, World.emit]⟩
        | none =>
          rw [Visit_accepted env v.path none w0 ha]
          obtain ⟨ps, hps⟩ := ih { watched := w0.watched ++ [v.path],
                                   trace := w0.trace ++ [.add v.path] }
          exact ⟨v.path :: ps, by simp [hps]⟩
  obtain ⟨ps, hps⟩ := key ((env.fs c.Path).visits env.join c.Path) (w.emit (.walk c.Path))
  exact ⟨ps, by rw [hps]; simp [World.emit]⟩

theorem count_map_add_zero (x : Effect) (hx : ∀ p, x ≠ .add p) (ps : List String) :
    (ps.map Effect.add).count x = 0 := by
  rw [List.count_eq_zero]
  intro hmem
  rw [List.mem_map] at hmem
  obtain ⟨p, _, hp⟩ := hmem
  exact hx p hp.symm

theorem Load_count (env : Env) (c : Config) (w : World) (x : Effect)
    (hadd : ∀ p, x ≠ .add p) (hwalk : ∀ p, x ≠ .walk p) :
    (Load env c w).2.trace.count x = w.trace.count x := by
  obtain ⟨ps, hps⟩ := Load_trace env c w
  rw [hps, List.count_append, List.count_cons, count_map_add_zero x hadd]
  have : (Effect.walk c.Path == x) = false := by
    simpa using fun h => hwalk c.Path h.symm
  simp [this]

/-- C6: when the visits before `v` all succeed and the visit of `v` fails with
`e` (reported by the traversal, or returned by `Add`), `Load` returns `e`; the
watch list then holds the paths visited before `v` and no other, and `Add`
was called on those and, when the traversal reported no error for `v`, on the
path of `v`.  `Visit` returns a reported error as it is without calling `Add`,
and returns the error of a rejected `Add` as it is. -/
theorem Load_aborts_at_first_failure (env : Env) (c : Config) (w : World)
    (pre post : List VisitCall) (v : VisitCall) (e : Err)
    (hvis : (env.fs c.Path).visits env.join c.Path = pre ++ v :: post)
    (herr : ∀ u ∈ pre, u.err = none)
    (hadd : addsAccepted env w.watched (pre.map VisitCall.path) = true)
    (hfail : visitError env (w.watched ++ pre.map VisitCall.path) v = some e) :
    (∀ path info e0 w0, Visit env path info (some e0) w0 = (some e0, w0)) ∧
    (∀ path info e0 w0, env.addErr w0.watched path = some e0 →
      Visit env path info none w0 = (some e0, w0.emit (.add path))) ∧
    (Load env c w).1 = some e ∧
    (Load env c w).2.watched = w.watched ++ pre.map VisitCall.path ∧
    adds (Load env c w).2.trace =
      adds w.trace ++ pre.map VisitCall.path ++ (if v.err = none then [v.path] else []) := by
  have hload := Load_eq_runVisits env c w
  rw [hvis, runVisits_failed env pre post v e (w.emit (.walk c.Path)) herr hadd hfail] at hload
  refine ⟨fun path info e0 w0 => Visit_error env path info e0 w0,
    fun path info e0 w0 h => Visit_rejected env path info e0 w0 h, by rw [hload], by rw [hload]; rfl,
    ?_⟩
  rw [hload]
  show adds (w.trace ++ [.walk c.Path] ++ (pre.map VisitCall.path).map Effect.add ++
    (if v.err = none then [.add v.path] else [])) = _
  rw [adds_append, adds_append, adds_append, adds_map_add]
  by_cases hv : v.err = none <;> simp [hv, adds]

/-- C6, on two runs: the listing of `/tmp/locked/locked` fails, and the
notification facility rejects the third path of `/tmp/proj`. -/
theorem Load_aborts_at_first_failure_witness :
    (Load demoEnv (configAt "/tmp/locked") World.init =
      (some ⟨"open /tmp/locked/locked: permission denied"⟩,
       { watched := ["/tmp/locked", "/tmp/locked/a.txt"],
         trace := [.walk "/tmp/locked", .add "/tmp/locked", .add "/tmp/locked/a.txt"] })) ∧
    (Load limitedEnv (configAt "/tmp/proj") World.init).1 = some ⟨"no space left on device"⟩ ∧
    (Load limitedEnv (configAt "/tmp/proj") World.init).2.watched =
      [] ++ [VisitCall.mk "/tmp/proj" none, ⟨"/tmp/proj/a.txt", none⟩].map VisitCall.path ∧
    adds (Load limitedEnv (configAt "/tmp/proj") World.init).2.trace =
      ["/tmp/proj", "/tmp/proj/a.txt", "/tmp/proj/b.txt"] :=
  have h := Load_aborts_at_first_failure limitedEnv (configAt "/tmp/proj") World.init
    [⟨"/tmp/proj", none⟩, ⟨"/tmp/proj/a.txt", none⟩]
    [⟨"/tmp/proj/sub", none⟩, ⟨"/tmp/proj/sub/c.txt", none⟩] ⟨"/tmp/proj/b.txt", none⟩
    ⟨"no space left on device"⟩ (by decide) (by decide) (by decide) (by decide)
  have g := Load_aborts_at_first_failure demoEnv (configAt "/tmp/locked") World.init
    [⟨"/tmp/locked", none⟩, ⟨"/tmp/locked/a.txt", none⟩] [⟨"/tmp/locked/b.txt", none⟩]
    ⟨"/tmp/locked/locked", some ⟨"open /tmp/locked/locked: permission denied"⟩⟩
    ⟨"open /tmp/locked/locked: permission denied"⟩ (by decide) (by decide) (by decide) (by decide)
  ⟨Prod.ext g.2.2.1 (by decide), h.2.2.1, h.2.2.2.1, h.2.2.2.2.trans (by decide)⟩

/-- C4 fails on the code: with an empty `Path` the error built on line 92 is
dropped and `Load` is the directory walk on the empty path, which it calls;
what `Load` then returns is whatever the walk returns, the `Lstat` error of
the empty path when there is one. -/
theorem Load_empty_path_walks (env : Env) (m b r i : String) (w : World) :
    Load env ⟨"", m, b, r, i⟩ w = Walk env "" (Visit env) w ∧
    walks (Load env ⟨"", m, b, r, i⟩ w).2.trace = walks w.trace ++ [""] ∧
    (∀ e, env.fs "" = .missing e → Load env ⟨"", m, b, r, i⟩ w = (some e, w.emit (.walk ""))) ∧
    Load demoEnv (configAt "") World.init =
      (some ⟨"lstat : no such file or directory"⟩, { watched := [], trace := [.walk ""] }) := by
  refine ⟨rfl, ?_, ?_, by decide⟩
  · obtain ⟨ps, hps⟩ := Load_trace env ⟨"", m, b, r, i⟩ w
    rw [hps, walks_append]
    simp [walks, walks_map_add]
  · intro e he
    simp [Load, Walk, he, walkNode, Visit]

/-! ## The entry points -/

theorem Watch_closes (sigs : List Signal) : closes (Watch sigs).effects = 0 :=
  Watch_effects_count_zero _ sigs loopBody_closes

/-- C8: when `Load` fails, `Run` returns that error in the world `Load` left,
without a single loop iteration and without entering `Build` or `Reload`;
when `Load` returns nil, `Run` ends as `Watch` ends, after the iterations and
actions of `Watch`. -/
theorem Run_gated_by_Load (env : Env) (c : Config) (sigs : List Signal) (w : World) :
    (∀ e, (Load env c w).1 = some e →
      Run env c sigs w =
        { outcome := .returned (some e), world := (Load env c w).2, passes := [] } ∧
      builds (Run env c sigs w).world.trace = builds w.trace ∧
      reloads (Run env c sigs w).world.trace = reloads w.trace) ∧
    ((Load env c w).1 = none →
      (Run env c sigs w).outcome = (Watch sigs).outcome ∧
      (Run env c sigs w).passes = (Watch sigs).passes ∧
      (Run env c sigs w).world = (Load env c w).2.emits (Watch sigs).effects) := by
  constructor
  · intro e he
    have hrun : Run env c sigs w =
        { outcome := .returned (some e), world := (Load env c w).2, passes := [] } := by
      unfold Run
      rcases hl : Load env c w with ⟨r, w1⟩
      rw [hl] at he
      simp only at he
      subst he
      rfl
    refine ⟨hrun, ?_, ?_⟩
    · rw [hrun]
      exact Load_count env c w .build (by simp) (by simp)
    · rw [hrun]
      exact Load_count env c w .reload (by simp) (by simp)
  · intro hn
    unfold Run
    rcases hl : Load env c w with ⟨r, w1⟩
    rw [hl] at hn
    simp only at hn
    subst hn
    exact ⟨rfl, rfl, rfl⟩

/-- C8, on two runs: a root that does not exist, and an existing root with
the signals change, tick, error. -/
theorem Run_gated_by_Load_witness :
    Run demoEnv (configAt "/nowhere") [.event ⟨"a.txt", 2⟩, .tick, .error (some ⟨"overflow"⟩)]
        World.init =
      { outcome := .returned (some ⟨"lstat /nowhere: no such file or directory"⟩),
        world := (Load demoEnv (configAt "/nowhere") World.init).2, passes := [] } ∧
    (Run demoEnv (configAt "/tmp/proj") [.event ⟨"a.txt", 2⟩, .tick, .error (some ⟨"overflow"⟩)]
        World.init).outcome =
      (Watch [.event ⟨"a.txt", 2⟩, .tick, .error (some ⟨"overflow"⟩)]).outcome ∧
    (Watch [.event ⟨"a.txt", 2⟩, .tick, .error (some ⟨"overflow"⟩)]).outcome =
      .returned (some ⟨"overflow"⟩) :=
  ⟨((Run_gated_by_Load demoEnv (configAt "/nowhere") _ World.init).1 _ (by decide)).1,
   ((Run_gated_by_Load demoEnv (configAt "/tmp/proj") _ World.init).2 (by decide)).1,
   by decide⟩

theorem Run_closes (env : Env) (c : Config) (sigs : List Signal) (w : World) :
    closes (Run env c sigs w).world.trace = closes w.trace := by
  have hc := Load_count env c w .close (by simp) (by simp)
  unfold Run
  rcases hl : Load env c w with ⟨r, w1⟩
  rw [hl] at hc
  cases r with
  | some e => exact hc
  | none =>
    show closes (w1.trace ++ (Watch sigs).effects) = closes w.trace
    unfold closes at *
    rw [List.count_append, hc]
    have := Watch_closes sigs
    unfold closes at this
    omega

theorem Run_returned_iff (env : Env) (c : Config) (sigs : List Signal) (w : World) (r : GoError) :
    (Run env c sigs w).outcome = .returned r ↔
      ((∃ e, (Load env c w).1 = some e ∧ r = some e) ∨
       ((Load env c w).1 = none ∧ (Watch sigs).outcome = .returned r)) := by
  unfold Run
  rcases hl : Load env c w with ⟨x, w1⟩
  cases x with
  | some e =>
    simp only [Outcome.returned.injEq]
    constructor
    · intro h
      exact Or.inl ⟨e, rfl, h.symm⟩
    · rintro (⟨e0, h0, rfl⟩ | ⟨h0, _⟩)
      · simp at h0
        rw [h0]
      · simp at h0
  | none => simp

/-- C9: `run` calls `Close` exactly once, as its last action, when the watcher
was created and `Run` returned, whether `Load` failed or the loop received an
error; it never calls `Close` when help is requested, when `config` fails or
when `NewWatcher` fails, nor while `Run` is still in the loop.  The value
`run` returns is nil for help and otherwise the error of the failing step. -/
theorem run_closes_once (env : Env) (cli : Cli) (sigs : List Signal) (w : World) :
    (cli.help = true →
      (run env cli sigs w).outcome = .returned none ∧
      closes (run env cli sigs w).world.trace = closes w.trace) ∧
    (∀ e, cli.help = false → config env cli = .error e →
      (run env cli sigs w).outcome = .returned (some e) ∧
      closes (run env cli sigs w).world.trace = closes w.trace) ∧
    (∀ conf e, cli.help = false → config env cli = .ok conf → NewWatcher env = some e →
      (run env cli sigs w).outcome = .returned (some e) ∧
      closes (run env cli sigs w).world.trace = closes w.trace) ∧
    (∀ conf r, cli.help = false → config env cli = .ok conf → NewWatcher env = none →
      (Run env conf sigs w).outcome = .returned r →
      (run env cli sigs w).outcome = .returned r ∧
      (run env cli sigs w).world.trace = (Run env conf sigs w).world.trace ++ [.close] ∧
      closes (Run env conf sigs w).world.trace = closes w.trace ∧
      closes (run env cli sigs w).world.trace = closes w.trace + 1 ∧
      ((∃ e, (Load env conf w).1 = some e ∧ r = some e) ∨
       ((Load env conf w).1 = none ∧ (Watch sigs).outcome = .returned r))) ∧
    (∀ conf, cli.help = false → config env cli = .ok conf → NewWatcher env = none →
      (Run env conf sigs w).outcome = .waiting →
      run env cli sigs w = Run env conf sigs w ∧
      closes (run env cli sigs w).world.trace = closes w.trace) := by
  refine ⟨?_, ?_, ?_, ?_, ?_⟩
  · intro hh
    simp [run, hh, World.emit, closes]
  · intro e hh hc
    simp [run, hh, hc]
  · intro conf e hh hc hn
    simp [run, hh, hc, hn]
  · intro conf r hh hc hn hr
    have hrun : run env cli sigs w =
        { outcome := .returned r, world := Close (Run env conf sigs w).world,
          passes := (Run env conf sigs w).passes } := by
      simp [run, hh, hc, hn, hr]
    have hcl := Run_closes env conf sigs w
    refine ⟨by rw [hrun], by rw [hrun]; rfl, hcl, ?_, (Run_returned_iff env conf sigs w r).1 hr⟩
    rw [hrun]
    show closes ((Run env conf sigs w).world.trace ++ [.close]) = closes w.trace + 1
    unfold closes at *
    rw [List.count_append, hcl]
    simp
  · intro conf hh hc hn hr
    have hrun : run env cli sigs w = Run env conf sigs w := by
      simp [run, hh, hc, hn, hr]
    exact ⟨hrun, by rw [hrun]; exact Run_closes env conf sigs w⟩

/-- C9, on five runs: help, a missing configuration file, no watcher, a root
that does not exist, and a loop that receives an error. -/
theorem run_closes_once_witness :
    closes (run demoEnv ⟨true, ""⟩ [.tick] World.init).world.trace = closes World.init.trace ∧
    (run demoEnv ⟨false, "other.toml"⟩ [.tick] World.init).outcome =
      .returned (some ⟨"open other.toml: no such file or directory"⟩) ∧
    (run noWatcherEnv ⟨false, ""⟩ [.tick] World.init).outcome =
      .returned (some ⟨"too many open files"⟩) ∧
    run lostRootEnv ⟨false, ""⟩ [.tick] World.init =
      { outcome := .returned (some ⟨"lstat /nowhere: no such file or directory"⟩),
        world := { watched := [], trace := [.walk "/nowhere", .close] }, passes := [] } ∧
    (run demoEnv ⟨false, ""⟩ [.event ⟨"a.txt", 2⟩, .tick, .error (some ⟨"overflow"⟩), .tick]
        World.init).outcome = .returned (some ⟨"overflow"⟩) ∧
    closes (run demoEnv ⟨false, ""⟩ [.event ⟨"a.txt", 2⟩, .tick, .error (some ⟨"overflow"⟩), .tick]
        World.init).world.trace = closes World.init.trace + 1 ∧
    (run demoEnv ⟨false, ""⟩ [.event ⟨"a.txt", 2⟩, .tick] World.init).outcome = .waiting ∧
    closes (run demoEnv ⟨false, ""⟩ [.event ⟨"a.txt", 2⟩, .tick] World.init).world.trace =
      closes World.init.trace :=
  have h := run_closes_once demoEnv ⟨false, ""⟩
    [.event ⟨"a.txt", 2⟩, .tick, .error (some ⟨"overflow"⟩), .tick] World.init
  have hr := h.2.2.2.1 (configAt "/tmp/proj") (some ⟨"overflow"⟩) rfl rfl rfl (by decide)
  have hw := (run_closes_once demoEnv ⟨false, ""⟩ [.event ⟨"a.txt", 2⟩, .tick] World.init).2.2.2.2
    (configAt "/tmp/proj") rfl rfl rfl (by decide)
  ⟨((run_closes_once demoEnv ⟨true, ""⟩ [.tick] World.init).1 rfl).2,
   ((run_closes_once demoEnv ⟨false, "other.toml"⟩ [.tick] World.init).2.1 _ rfl rfl).1,
   ((run_closes_once noWatcherEnv ⟨false, ""⟩ [.tick] World.init).2.2.1
      (configAt "/tmp/proj") _ rfl rfl rfl).1,
   by decide, hr.1, hr.2.2.2.1, by decide, hw.2⟩


end Nightswatch
